import Mathlib

set_option maxRecDepth 100000

/-!
Verification of the Bug Surgeon debug orchestrator
(`debug_orchestrator.py`).

The development shallowly embeds the core orchestration logic of the
repository: the Content Fetcher (`read_file_content`), the Tool-Request
Parser (`parse_tool_requests`), the Response Parser (`extract_analysis` /
`_create_fallback_analysis`), the Direct Analysis prompt builder
(`analyze_bug_direct`) and the ReAct loop (`_analyze_bug_react`).

Python strings are modelled as Lean `String`s (a wrapper around
`List Char`, matching Python's code-point view of `str`); external
collaborators (the Anthropic model and the file backing store) are
modelled as oracle functions passed in as parameters.
-/

namespace BugSurgeon

/-! ## Python string primitives -/

/-- ASCII whitespace as stripped by Python's `str.strip()`
(space, tab, newline, carriage return, vertical tab, form feed).
`str.strip()` also strips rarer Unicode whitespace, which never occurs
in the texts of this repository and is not modelled. -/
def isPySpace (c : Char) : Bool :=
  c == ' ' || c == '\t' || c == '\n' || c == '\r' || c == '\x0b' || c == '\x0c'

/-- Modelling of Python's `str.strip()`: drop whitespace from both ends. -/
def pyStrip (s : String) : String :=
  ⟨((s.data.dropWhile isPySpace).reverse.dropWhile isPySpace).reverse⟩

/-- Modelling of Python's `str.split(sep)` (for a one-character separator),
on the character list: always returns at least one (possibly empty) chunk. -/
def splitOnChar (sep : Char) : List Char → List (List Char)
  | [] => [[]]
  | c :: cs =>
    let r := splitOnChar sep cs
    if c == sep then [] :: r
    else
      match r with
      | h :: t => (c :: h) :: t
      | [] => [[c]]

/-- Python's `text.split('\n')`. -/
def splitNl (s : String) : List String :=
  (splitOnChar '\n' s.data).map fun l => ⟨l⟩

/-- Python's `'\n'.join(lines)`. -/
def joinNl : List String → String
  | [] => ""
  | [x] => x
  | x :: xs => x ++ "\n" ++ joinNl xs

/-- Everything after the first `':'` of a character list
(Python's `s.split(':', 1)[1]`); empty if there is no colon. -/
def afterColonList : List Char → List Char
  | [] => []
  | c :: cs => if c == ':' then cs else afterColonList cs

/-- Python's `s.split(':', 1)[1]` on strings. -/
def afterColon (s : String) : String :=
  ⟨afterColonList s.data⟩

/-- Python's `s.startswith(pre)`. -/
def startsWithStr (pre s : String) : Bool :=
  pre.data.isPrefixOf s.data

/-- Python's `s[:n]` for `0 ≤ n`. -/
def strTake (s : String) (n : Nat) : String :=
  ⟨s.data.take n⟩

/-- Python's `len(s)` (number of code points). -/
def strLen (s : String) : Nat :=
  s.data.length

/-- Numeric value of a digit list (most significant first). -/
def digitsVal (l : List Char) : Nat :=
  l.foldl (fun acc c => acc * 10 + (c.toNat - '0'.toNat)) 0

/-- Modelling of Python's `int(s)`: optional surrounding whitespace,
optional sign, then a nonempty run of ASCII digits; anything else raises
`ValueError`, modelled as `none`. (CPython also accepts underscore digit
separators and non-ASCII digits; those never occur here.) -/
def pyInt (s : String) : Option Int :=
  match (pyStrip s).data with
  | '-' :: ds => if ds ≠ [] ∧ ds.all Char.isDigit then some (-(digitsVal ds : Int)) else none
  | '+' :: ds => if ds ≠ [] ∧ ds.all Char.isDigit then some (digitsVal ds : Int) else none
  | ds => if ds ≠ [] ∧ ds.all Char.isDigit then some (digitsVal ds : Int) else none

/-- Split a character list at the first occurrence of `pat`:
returns `(before, after)` where `after` is the suffix following the
occurrence. `none` when `pat` does not occur. -/
def splitAfterSub (pat : List Char) : List Char → Option (List Char × List Char)
  | [] => if pat.isPrefixOf ([] : List Char) then some ([], []) else none
  | c :: cs =>
    if pat.isPrefixOf (c :: cs) then some ([], (c :: cs).drop pat.length)
    else (splitAfterSub pat cs).map fun p => (c :: p.1, p.2)

/-- Python's `pat in s` substring test. -/
def containsSub (s pat : String) : Bool :=
  (splitAfterSub pat.data s.data).isSome

/-- Leftmost match of the regex `open(.*?)close` (with `re.DOTALL`):
returns `(group1, rest-after-close)`. As the pattern begins with the
literal `openP`, the leftmost match starts at the first occurrence of
`openP` that is followed by `closeP`, and the lazy group takes the
shortest middle. -/
def findFirstSplitCL (openP closeP s : List Char) : Option (List Char × List Char) :=
  match splitAfterSub openP s with
  | none => none
  | some p =>
    match splitAfterSub closeP p.2 with
    | none => none
    | some q => some (q.1, q.2)

/-- Python's `re.search(r'open(.*?)close', s, re.DOTALL)`, returning
`group(1)`. -/
def findBetweenS (openT closeT s : String) : Option String :=
  (findFirstSplitCL openT.data closeT.data s.data).map fun p => ⟨p.1⟩

/-- Fuel-driven worker for `re.findall`: collect successive
non-overlapping matches left to right, resuming after each match. -/
def findAllBetweenAux (openP closeP : List Char) : Nat → List Char → List (List Char)
  | 0, _ => []
  | fuel + 1, s =>
    match findFirstSplitCL openP closeP s with
    | none => []
    | some p => p.1 :: findAllBetweenAux openP closeP fuel p.2

/-- Python's `re.findall(r'open(.*?)close', s, re.DOTALL)`. The fuel
`s.length + 1` suffices: the tags used in this repository are nonempty,
so every match consumes at least one character of the scanned suffix. -/
def findAllBetween (openT closeT s : String) : List String :=
  (findAllBetweenAux openT.data closeT.data (s.data.length + 1) s.data).map fun l => ⟨l⟩

/-! ## Data model (`debug_orchestrator.py`, dataclasses) -/

/-- Results from bug analysis (`BugAnalysis` dataclass). `file_changes`
is a Python dict holding in practice a single entry; it is modelled as an
association list. -/
structure BugAnalysis where
  root_cause : String
  explanation : String
  file_changes : List (String × String)
  reasoning_trace : List String
  confidence : String
deriving DecidableEq

/-- Represents a request for file access or other tools
(`ToolRequest` dataclass). -/
structure ToolRequest where
  tool : String
  file_path : Option String
  start_line : Option Int
  end_line : Option Int
deriving DecidableEq

/-- One role-tagged conversation turn (an element of the `messages`
list sent to the model). -/
structure Msg where
  role : String
  content : String
deriving DecidableEq

/-! ## Tool-Request Parser (`parse_tool_requests`, lines 302-346) -/

/-- One step of the field scan over the (up to 4) lines following a
`TOOL_REQUEST:` marker. The accumulator is `(file_path, start_line,
end_line)`; `FILE:` / `START_LINE:` / `END_LINE:` labels overwrite the
corresponding slot, a line number that fails `int(...)` leaves its slot
unchanged (the `except ValueError: pass` in the source). -/
def toolFieldStep (acc : Option String × Option Int × Option Int) (raw : String) :
    Option String × Option Int × Option Int :=
  let l := pyStrip raw
  if startsWithStr "FILE:" l then (some (pyStrip (afterColon l)), acc.2.1, acc.2.2)
  else if startsWithStr "START_LINE:" l then
    match pyInt (pyStrip (afterColon l)) with
    | some v => (acc.1, some v, acc.2.2)
    | none => acc
  else if startsWithStr "END_LINE:" l then
    match pyInt (pyStrip (afterColon l)) with
    | some v => (acc.1, acc.2.1, some v)
    | none => acc
  else acc

/-- Attempt to read one tool request whose `TOOL_REQUEST:` marker is the
head of the given line suffix. The source window
`range(i + 1, min(i + 5, len(lines)))` is exactly the next 4 lines
(fewer at the end of the text), i.e. `rest.take 4`. The request is only
emitted when a truthy (nonempty) file path was found. -/
def requestAtHead : List String → Option ToolRequest
  | [] => none
  | l :: rest =>
    let line := pyStrip l
    if startsWithStr "TOOL_REQUEST:" line then
      let tool_type := pyStrip (afterColon line)
      let fields := (rest.take 4).foldl toolFieldStep (none, none, none)
      match fields.1 with
      | some fp => if fp == "" then none else some ⟨tool_type, some fp, fields.2.1, fields.2.2⟩
      | none => none
    else none

/-- The `while i < len(lines)` scan of `parse_tool_requests`: visit every
line index in order, appending the request opened there (if any). -/
def ptrGo : List String → List ToolRequest
  | [] => []
  | l :: rest =>
    match requestAtHead (l :: rest) with
    | some r => r :: ptrGo rest
    | none => ptrGo rest

/-- Parse tool requests from Claude's response
(`parse_tool_requests`, lines 302-346). -/
def parse_tool_requests (response_text : String) : List ToolRequest :=
  ptrGo (splitNl response_text)

example :
    parse_tool_requests "TOOL_REQUEST: read_file\nFILE: a.py\nSTART_LINE: 10\nEND_LINE: 20\n" =
      [⟨"read_file", some "a.py", some 10, some 20⟩] := by decide

example :
    parse_tool_requests "TOOL_REQUEST: read_file\nFILE: a.py\nSTART_LINE: abc\n" =
      [⟨"read_file", some "a.py", none, none⟩] := by decide

example : parse_tool_requests "TOOL_REQUEST: read_file\nnothing else" = [] := by decide

/-! ## Response Parser (`extract_analysis` / `_create_fallback_analysis`,
lines 348-409) -/

/-- Create a fallback analysis when structured extraction fails
(`_create_fallback_analysis`, lines 393-409). `sentences` (the result of
`response_text.split('.')`) is never empty, so the source's
`if sentences else "Analysis provided"` alternative is dead code. -/
def create_fallback_analysis (response_text : String) : BugAnalysis :=
  let reasoning_trace :=
    (findAllBetween "<thinking>" "</thinking>" response_text).map pyStrip
  let sentences := splitOnChar '.' response_text.data
  let root_cause : String := ⟨sentences.headD []⟩
  { root_cause :=
      if strLen root_cause > 200 then strTake root_cause 200 ++ "..." else root_cause,
    explanation :=
      if strLen response_text > 500 then strTake response_text 500 ++ "..." else response_text,
    file_changes := [("analysis.md", response_text)],
    reasoning_trace := reasoning_trace,
    confidence := "MEDIUM" }

/-- One step of the line scan over the `<analysis>` block
(lines 364-371 of the source). The accumulator is
`(root_cause, explanation, confidence)`; each labelled line overwrites
its slot with the trimmed remainder after the first colon. -/
def scanLine (acc : String × String × String) (raw : String) : String × String × String :=
  let line := pyStrip raw
  if startsWithStr "ROOT_CAUSE:" line then (pyStrip (afterColon line), acc.2.1, acc.2.2)
  else if startsWithStr "EXPLANATION:" line then (acc.1, pyStrip (afterColon line), acc.2.2)
  else if startsWithStr "CONFIDENCE:" line then (acc.1, acc.2.1, pyStrip (afterColon line))
  else acc

/-- The full top-to-bottom scan of the `<analysis>` block, starting from
the initial values `root_cause = ""`, `explanation = ""`,
`confidence = "MEDIUM"` of lines 360-362. -/
def scanFields (lines : List String) : String × String × String :=
  lines.foldl scanLine ("", "", "MEDIUM")

/-- Extract structured analysis from Claude's response
(`extract_analysis`, lines 348-391). The Python signature is
`Optional[BugAnalysis]`; both reachable return sites produce a record
(`extract_analysis_spec_C9` below proves the option is always `some`). -/
def extract_analysis (response_text : String) : Option BugAnalysis :=
  match findBetweenS "<analysis>" "</analysis>" response_text with
  | none => some (create_fallback_analysis response_text)
  | some analysis_text =>
    let f := scanFields (splitNl analysis_text)
    let solution_text := (findBetweenS "<solution>" "</solution>" response_text).getD ""
    let reasoning_trace :=
      (findAllBetween "<thinking>" "</thinking>" response_text).map pyStrip
    some
      { root_cause := if f.1 == "" then "Analysis completed" else f.1,
        explanation := if f.2.1 == "" then strTake response_text 500 ++ "..." else f.2.1,
        file_changes := [("solution.md", solution_text)],
        reasoning_trace := reasoning_trace,
        confidence := f.2.2 }

example :
    extract_analysis
        "<thinking>t1</thinking><analysis>\nROOT_CAUSE: a\nEXPLANATION: b\nCONFIDENCE: HIGH\n</analysis><solution>s</solution>" =
      some ⟨"a", "b", [("solution.md", "s")], ["t1"], "HIGH"⟩ := by decide

example :
    extract_analysis "no tags at all" =
      some ⟨"no tags at all", "no tags at all", [("analysis.md", "no tags at all")], [],
        "MEDIUM"⟩ := by decide

/-! ## Content Fetcher (`read_file_content`, lines 205-236) -/

/-- Outcome of the backing file store for one path. `missing` is the
local-mode `not local_path.exists()` case; `readErr` is the repository
`get_contents` failure or the outer `except Exception` (with the
stringified exception message). -/
inductive FetchOutcome where
  | ok (content : String)
  | missing
  | readErr (msg : String)
deriving DecidableEq

/-- Python truthiness of an `Optional[int]`: `None` and `0` are falsy. -/
def otruthy : Option Int → Bool
  | none => false
  | some n => n != 0

/-- Effective index of a Python slice bound `i` for a list of length `n`
(`slice.indices`): negative values count from the end, then the result
is clamped to `[0, n]`. -/
def pyIdx (n : Nat) (i : Int) : Nat :=
  if i < 0 then ((n : Int) + i).toNat else min i.toNat n

/-- Python's `l[s:e]` list slicing. -/
def pySlice {α : Type} (l : List α) (s e : Int) : List α :=
  (l.drop (pyIdx l.length s)).take (pyIdx l.length e - pyIdx l.length s)

/-- Read file content from repository or local filesystem
(`read_file_content`, lines 205-236), parameterised by the backing
store `fs`. On failure a sentinel string is returned instead of raising.
If a (truthy) line bound is given, the requested lines are sliced out
and a header naming the file and the range is prefixed; otherwise the
header names just the file. -/
def read_file_content (fs : String → FetchOutcome) (file_path : String)
    (start_line end_line : Option Int) : String :=
  match fs file_path with
  | .missing => "File not found: " ++ file_path
  | .readErr e => "Error reading file: " ++ e
  | .ok content =>
    if otruthy start_line || otruthy end_line then
      let lines := splitNl content
      let start : Int := if otruthy start_line then start_line.getD 0 - 1 else 0
      let stop : Int := if otruthy end_line then end_line.getD 0 else (lines.length : Int)
      "# " ++ file_path ++ " lines " ++ toString (start + 1) ++ "-" ++ toString stop ++
        "\n" ++ joinNl (pySlice lines start stop)
    else
      "# " ++ file_path ++ "\n" ++ content

example :
    read_file_content (fun _ => .ok "l1\nl2\nl3\nl4") "a.py" (some 2) (some 3) =
      "# a.py lines 2-3\nl2\nl3" := by decide

example :
    read_file_content (fun _ => .missing) "a.py" none none = "File not found: a.py" := by
  decide

/-! ## Direct Analysis Path (`analyze_bug_direct`, lines 238-300) -/

/-- The per-file accumulation loop of `analyze_bug_direct`
(lines 252-258): each file is fetched with no line range; its
header-plus-body text is appended fenced as a code block unless the
fetch result contains the substring `"Error reading file"` (Python's
`in` operator), in which case the file is skipped (only a warning is
logged). -/
def addFileContents (fs : String → FetchOutcome) : List String → String → String
  | [], acc => acc
  | fp :: rest, acc =>
    let file_content := read_file_content fs fp none none
    if containsSub file_content "Error reading file" then
      addFileContents fs rest acc
    else
      addFileContents fs rest (acc ++ "\n```python\n" ++ file_content ++ "\n```\n")

/-- The fixed closing instruction appended to the direct prompt
(lines 260-271 of the source). -/
def closingInstr : String :=
  "\nProvide your analysis in this format:\n<analysis>\nROOT_CAUSE: Brief description of the root cause\nEXPLANATION: Detailed explanation of why this issue occurs\nCONFIDENCE: HIGH/MEDIUM/LOW based on available evidence\n</analysis>\n\n<solution>\nProvide the corrected code with clear explanations\n</solution>\n"

/-- The comprehensive prompt built by `analyze_bug_direct`
(lines 242-271): issue text, a fixed instruction, the file-contents
section (only when `file_paths` is truthy, i.e. nonempty), and the
fixed closing instruction. -/
def directPrompt (fs : String → FetchOutcome) (issue_description : String)
    (file_paths : List String) : String :=
  let base :=
    "\n" ++ issue_description ++
      "\n\nPlease analyze this systematically and identify the root cause.\n"
  let withFiles :=
    if file_paths.isEmpty then base
    else addFileContents fs file_paths (base ++ "\n\nRelevant file contents:\n")
  withFiles ++ closingInstr

/-! ## ReAct Analysis Path (`_analyze_bug_react`, lines 450-526)

The model is an oracle `llm : List Msg → Option String`; `none` models a
raised provider error (the `except` branch of the loop body, which logs
and advances to the next iteration), `some t` the reply text. The
source's monotone counter `while iteration < max_iterations` with
`iteration += 1` in the continuing branches is represented by the
structurally decreasing remaining budget `fuel = max_iterations -
iteration`, with the absolute `iteration` still carried for the trace
strings.

The result is instrumented: `calls` counts the model invocations of the
invocation, and `fetched` records, in call order, every path passed to
the Content Fetcher `read_file_content` from inside the loop. -/

/-- Instrumented result of one ReAct invocation. -/
structure ReactOut where
  analysis : Option BugAnalysis
  calls : Nat
  fetched : List String
deriving DecidableEq

/-- Python truthiness of an `Optional[str]`: `None` and `""` are falsy
(the `tool_request.file_path` test on line 486). -/
def optStrTruthy : Option String → Bool
  | none => false
  | some s => !(s == "")

/-- The user turn embedding fetched file content plus the instruction to
finalize (lines 493-496). -/
def fileTurn (fs : String → FetchOutcome) (tr : ToolRequest) (fp : String) : Msg :=
  ⟨"user",
    "File content for " ++ fp ++ ":\n" ++
      read_file_content fs fp tr.start_line tr.end_line ++
      "\n\nNow please provide your final analysis with <analysis> and <solution> blocks."⟩

/-- The single forcing turn appended when no request yielded a newly
fetched file (lines 503-508). -/
def forcingMsg : Msg :=
  ⟨"user", "Please provide your final analysis now with <analysis> and <solution> blocks."⟩

/-- The `for tool_request in tool_requests` loop of lines 484-501:
process the parsed requests in order against the conversation `msgs`,
the requested-files set `req` (modelled as a duplicate-free list in
insertion order), the `new_files_added` flag and the instrumentation
log. An actionable `read_file` request for a path not yet in `req`
fetches the file, appends the file turn and records the path; a path
already in `req` is skipped without fetching. -/
def processRequests (fs : String → FetchOutcome) :
    List ToolRequest → List Msg → List String → Bool → List String →
      List Msg × List String × Bool × List String
  | [], msgs, req, flag, log => (msgs, req, flag, log)
  | tr :: trs, msgs, req, flag, log =>
    if tr.tool == "read_file" && optStrTruthy tr.file_path then
      let fp := tr.file_path.getD ""
      if req.contains fp then
        processRequests fs trs msgs req flag log
      else
        processRequests fs trs (msgs ++ [fileTurn fs tr fp]) (req ++ [fp]) true (log ++ [fp])
    else
      processRequests fs trs msgs req flag log

/-- The ReAct loop of `_analyze_bug_react` (lines 461-526). Upon
exhaustion the fixed placeholder is handed to the fallback builder
(line 526). In the terminal branch the source tests `if analysis:`; a
dataclass instance is always truthy and `extract_analysis` always
returns a record, so the `none` arm below is dead code (it corresponds
to the source re-entering the loop with nothing changed, and is marked
by `analysis := none`). -/
def reactLoop (llm : List Msg → Option String) (fs : String → FetchOutcome) :
    Nat → List Msg → List String → List String → Nat → ReactOut
  | 0, _, _, _, _ =>
    { analysis := some (create_fallback_analysis "Analysis attempted but max iterations reached"),
      calls := 0, fetched := [] }
  | fuel + 1, messages, reasoning_trace, requested_files, iteration =>
    match llm messages with
    | none =>
      let r := reactLoop llm fs fuel messages reasoning_trace requested_files (iteration + 1)
      { r with calls := r.calls + 1 }
    | some response_text =>
      let trace := reasoning_trace ++
        ["Iteration " ++ toString (iteration + 1) ++ ": " ++ strTake response_text 200 ++ "..."]
      let tool_requests := parse_tool_requests response_text
      if tool_requests.isEmpty then
        match extract_analysis response_text with
        | some a => { analysis := some { a with reasoning_trace := trace }, calls := 1, fetched := [] }
        | none => { analysis := none, calls := 1, fetched := [] }
      else
        let pr := processRequests fs tool_requests
          (messages ++ [⟨"assistant", response_text⟩]) requested_files false []
        let next := if pr.2.2.1 then pr.1 else pr.1 ++ [forcingMsg]
        let r := reactLoop llm fs fuel next trace pr.2.1 (iteration + 1)
        { r with calls := r.calls + 1, fetched := pr.2.2.2 ++ r.fetched }

/-- ReAct analysis entry point (`_analyze_bug_react`, lines 450-460):
seed the conversation with the issue text and run the loop with an empty
trace and an empty requested-files set. -/
def analyze_bug_react (llm : List Msg → Option String) (fs : String → FetchOutcome)
    (issue_description : String) (max_iterations : Nat) : ReactOut :=
  reactLoop llm fs max_iterations
    [⟨"user", "Please analyze this bug report and identify the root cause:\n\n" ++
        issue_description⟩]
    [] [] 0

/-! ## Helper lemmas -/

theorem strData_append (a b : String) : (a ++ b).data = a.data ++ b.data := by
  cases a; cases b; rfl

theorem strAppend_assoc (a b c : String) : a ++ b ++ c = a ++ (b ++ c) := by
  cases a; cases b; cases c
  show String.mk _ = String.mk _
  simp [String.append, List.append_assoc]

theorem strAppend_empty (a : String) : a ++ "" = a := by
  cases a
  show String.mk _ = String.mk _
  simp [String.append]

theorem strEmpty_append (a : String) : "" ++ a = a := by
  cases a
  show String.mk _ = String.mk _
  simp [String.append]

/-- The line scan of `parse_tool_requests` emits, in document order, one
request per index at which `requestAtHead` succeeds. -/
theorem ptrGo_eq_filterMap (lines : List String) :
    ptrGo lines = (List.range lines.length).filterMap fun i => requestAtHead (lines.drop i) := by
  induction lines with
  | nil => rfl
  | cons l rest ih =>
    have hmap :
        (List.filterMap (fun i => requestAtHead ((l :: rest).drop i))
            ((List.range rest.length).map Nat.succ)) =
          (List.range rest.length).filterMap fun i => requestAtHead (rest.drop i) := by
      rw [List.filterMap_map]
      rfl
    cases h : requestAtHead (l :: rest) with
    | none =>
      simp only [ptrGo, h, List.length_cons, List.range_succ_eq_map, List.filterMap_cons,
        List.drop_zero, hmap]
      exact ih
    | some r =>
      simp only [ptrGo, h, List.length_cons, List.range_succ_eq_map, List.filterMap_cons,
        List.drop_zero, hmap]
      exact congrArg (r :: ·) ih

/-- The field fold never produces a file path when no line of the window
starts (after stripping) with `FILE:`. -/
theorem foldl_toolFieldStep_no_file (ws : List String)
    (h : ∀ w ∈ ws, startsWithStr "FILE:" (pyStrip w) = false) :
    ∀ acc : Option String × Option Int × Option Int,
      ((ws.foldl toolFieldStep acc).1 = acc.1) := by
  induction ws with
  | nil => intro acc; rfl
  | cons w ws ih =>
    intro acc
    have hw := h w (List.mem_cons_self w ws)
    have hrest : ∀ w ∈ ws, startsWithStr "FILE:" (pyStrip w) = false := fun x hx =>
      h x (List.mem_cons_of_mem w hx)
    rw [List.foldl_cons, ih hrest]
    by_cases h1 : startsWithStr "START_LINE:" (pyStrip w) = true
    · simp only [toolFieldStep, hw]
      simp only [h1]
      cases pyInt (pyStrip (afterColon (pyStrip w))) <;> simp
    · rw [Bool.not_eq_true] at h1
      by_cases h2 : startsWithStr "END_LINE:" (pyStrip w) = true
      · simp only [toolFieldStep, hw, h1, h2]
        cases pyInt (pyStrip (afterColon (pyStrip w))) <;> simp
      · rw [Bool.not_eq_true] at h2
        simp [toolFieldStep, hw, h1, h2]

/-- Claim C6: the Tool-Request Parser emits one request per
`TOOL_REQUEST:` marker line that has a `FILE:` line within the next 4
lines, in document order of the markers (the scan equals a filterMap
over the line indices); a marker with no `FILE:` within the next 4 lines
yields no request; the claim's concrete example yields exactly one fully
populated request; a `START_LINE:` value that fails to parse as an
integer is left unset without dropping the request. -/
theorem C6_tool_request_grammar :
    (∀ t : String,
        parse_tool_requests t =
          (List.range (splitNl t).length).filterMap fun i =>
            requestAtHead ((splitNl t).drop i)) ∧
    (∀ (l : String) (rest : List String),
        (∀ w ∈ rest.take 4, startsWithStr "FILE:" (pyStrip w) = false) →
        requestAtHead (l :: rest) = none) ∧
    parse_tool_requests "TOOL_REQUEST: read_file\nFILE: a.py\nSTART_LINE: 10\nEND_LINE: 20\n" =
      [⟨"read_file", some "a.py", some 10, some 20⟩] ∧
    parse_tool_requests "TOOL_REQUEST: read_file\nFILE: a.py\nSTART_LINE: abc\nEND_LINE: 20\n" =
      [⟨"read_file", some "a.py", none, some 20⟩] := by
  refine ⟨fun t => ptrGo_eq_filterMap (splitNl t), fun l rest h => ?_, by decide, by decide⟩
  by_cases hm : startsWithStr "TOOL_REQUEST:" (pyStrip l) = true
  · simp only [requestAtHead, hm]
    rw [foldl_toolFieldStep_no_file (rest.take 4) h (none, none, none)]
    simp
  · rw [Bool.not_eq_true] at hm
    simp [requestAtHead, hm]

/-- Witness for C6: a marker with no `FILE:` line in its window yields no
request. -/
theorem C6_witness :
    requestAtHead ["TOOL_REQUEST: read_file", "no file here", "START_LINE: 3"] = none :=
  C6_tool_request_grammar.2.1 "TOOL_REQUEST: read_file" ["no file here", "START_LINE: 3"]
    (by decide)

/-! ## Last-occurrence characterization of the analysis-field scan -/

/-- Value of the last line of `lines` whose stripped text starts with
`label`: the stripped remainder after the first colon (the "last
occurrence wins" reading of the spec). -/
def lastValue (label : String) (lines : List String) : Option String :=
  ((lines.map pyStrip).reverse.find? fun l => startsWithStr label l).map
    fun l => pyStrip (afterColon l)

/-- Two lists starting with distinct characters cannot both be prefixes
of the same list. -/
theorem isPrefixOf_head_conflict {c1 c2 : Char} {p q d : List Char}
    (h12 : (c2 == c1) = false)
    (h : (c1 :: p).isPrefixOf d = true) : (c2 :: q).isPrefixOf d = false := by
  cases d with
  | nil => simp [List.isPrefixOf] at h
  | cons c cs =>
    simp only [List.isPrefixOf, Bool.and_eq_true] at h ⊢
    have hc : c1 = c := eq_of_beq h.1
    subst hc
    simp [h12]

/-- Labels with distinct head characters cannot both be matched by the
same (stripped) line. -/
theorem startsWith_conflict (l lbl1 lbl2 : String) (c1 c2 : Char) (p q : List Char)
    (h1d : lbl1.data = c1 :: p) (h2d : lbl2.data = c2 :: q) (hc : (c2 == c1) = false)
    (h : startsWithStr lbl1 l = true) : startsWithStr lbl2 l = false := by
  unfold startsWithStr at h ⊢
  rw [h1d] at h
  rw [h2d]
  exact isPrefixOf_head_conflict hc h

theorem lastValue_cons_getD (lbl x : String) (xs : List String) (d : String) :
    (lastValue lbl (x :: xs)).getD d =
      (lastValue lbl xs).getD
        (if startsWithStr lbl (pyStrip x) then pyStrip (afterColon (pyStrip x)) else d) := by
  unfold lastValue
  rw [List.map_cons, List.reverse_cons, List.find?_append]
  cases hf : (xs.map pyStrip).reverse.find? (fun l => startsWithStr lbl l) with
  | some v => simp [hf]
  | none =>
    by_cases hx : startsWithStr lbl (pyStrip x) = true
    · simp [hf, hx]
    · rw [Bool.not_eq_true] at hx
      simp [hf, hx]

/-- The single top-to-bottom scan of the `<analysis>` block lines is
exactly "last occurrence wins" for each of the three labels. -/
theorem foldl_scanLine_eq (lines : List String) :
    ∀ acc : String × String × String,
      lines.foldl scanLine acc =
        ((lastValue "ROOT_CAUSE:" lines).getD acc.1,
         (lastValue "EXPLANATION:" lines).getD acc.2.1,
         (lastValue "CONFIDENCE:" lines).getD acc.2.2) := by
  induction lines with
  | nil => intro acc; simp [lastValue]
  | cons x xs ih =>
    intro acc
    rw [List.foldl_cons, ih (scanLine acc x)]
    rw [lastValue_cons_getD, lastValue_cons_getD, lastValue_cons_getD]
    by_cases hR : startsWithStr "ROOT_CAUSE:" (pyStrip x) = true
    · have hE := startsWith_conflict (pyStrip x) "ROOT_CAUSE:" "EXPLANATION:" 'R' 'E' _ _
        rfl rfl (by decide) hR
      have hC := startsWith_conflict (pyStrip x) "ROOT_CAUSE:" "CONFIDENCE:" 'R' 'C' _ _
        rfl rfl (by decide) hR
      simp [scanLine, hR, hE, hC]
    · rw [Bool.not_eq_true] at hR
      by_cases hE : startsWithStr "EXPLANATION:" (pyStrip x) = true
      · have hC := startsWith_conflict (pyStrip x) "EXPLANATION:" "CONFIDENCE:" 'E' 'C' _ _
          rfl rfl (by decide) hE
        simp [scanLine, hR, hE, hC]
      · rw [Bool.not_eq_true] at hE
        by_cases hC : startsWithStr "CONFIDENCE:" (pyStrip x) = true
        · simp [scanLine, hR, hE, hC]
        · rw [Bool.not_eq_true] at hC
          simp [scanLine, hR, hE, hC]

/-- Claim C4 (amended): within a reply carrying an `<analysis>` block,
the single top-to-bottom scan takes, for each of the three labels, the
trimmed text after the first colon of the LAST matching line (defaults
`""`, `""`, `"MEDIUM"` when a label is absent); when the `ROOT_CAUSE:`
and `EXPLANATION:` values so parsed are nonempty, all three values are
returned exactly as given (confidence not defaulted, even when its value
is empty), and when no `CONFIDENCE:` line is present confidence equals
`MEDIUM`. (The original claim's "values are returned exactly as given"
fails when the parsed root-cause or explanation value is empty — see
`C4_counterexample` and claim C10.) -/
theorem C4_analysis_fields :
    (∀ lines : List String,
        scanFields lines =
          ((lastValue "ROOT_CAUSE:" lines).getD "",
           (lastValue "EXPLANATION:" lines).getD "",
           (lastValue "CONFIDENCE:" lines).getD "MEDIUM")) ∧
    (∀ t block : String,
        findBetweenS "<analysis>" "</analysis>" t = some block →
        ∀ rc ex cf : String,
          scanFields (splitNl block) = (rc, ex, cf) →
          rc ≠ "" → ex ≠ "" →
          extract_analysis t =
            some ⟨rc, ex,
              [("solution.md", (findBetweenS "<solution>" "</solution>" t).getD "")],
              (findAllBetween "<thinking>" "</thinking>" t).map pyStrip, cf⟩) := by
  constructor
  · intro lines
    exact foldl_scanLine_eq lines ("", "", "MEDIUM")
  · intro t block hb rc ex cf hscan hrc hex
    unfold extract_analysis
    rw [hb]
    have h1 : (rc == "") = false := beq_eq_false_iff_ne.mpr hrc
    have h2 : (ex == "") = false := beq_eq_false_iff_ne.mpr hex
    simp [hscan, h1, h2]

/-- Counterexample to C4 as stated: in the reply below the `ROOT_CAUSE:`
line is present and its trimmed value after the colon is `""`, yet
`root_cause` is set to `"Analysis completed"`, not to that value. -/
theorem C4_counterexample :
    lastValue "ROOT_CAUSE:" (splitNl "\nROOT_CAUSE:\nEXPLANATION: e\nCONFIDENCE: HIGH\n") =
      some "" ∧
    extract_analysis "<analysis>\nROOT_CAUSE:\nEXPLANATION: e\nCONFIDENCE: HIGH\n</analysis>" =
      some ⟨"Analysis completed", "e", [("solution.md", "")], [], "HIGH"⟩ ∧
    ("Analysis completed" : String) ≠ "" := by
  refine ⟨by decide, by decide, by decide⟩

/-- Witness for C4: repeated `ROOT_CAUSE:` labels — the last occurrence
wins — and a missing `CONFIDENCE:` line defaults to `MEDIUM`. -/
theorem C4_witness :
    extract_analysis "<analysis>ROOT_CAUSE: a\nROOT_CAUSE: b\nEXPLANATION: e\n</analysis>" =
      some ⟨"b", "e", [("solution.md", "")], [], "MEDIUM"⟩ :=
  C4_analysis_fields.2 "<analysis>ROOT_CAUSE: a\nROOT_CAUSE: b\nEXPLANATION: e\n</analysis>"
    "ROOT_CAUSE: a\nROOT_CAUSE: b\nEXPLANATION: e\n" (by decide) "b" "e" "MEDIUM" (by decide)
    (by decide) (by decide)

/-! ## Fallback shape (claims C5 and C10) -/

/-- The "text up to the first period" of a reply (what
`response_text.split('.')[0]` computes). -/
def firstSentence (t : String) : String :=
  ⟨t.data.takeWhile fun c => !(c == '.')⟩

theorem splitOnChar_ne_nil (c : Char) (l : List Char) : splitOnChar c l ≠ [] := by
  cases l with
  | nil => simp [splitOnChar]
  | cons x xs =>
    simp only [splitOnChar]
    by_cases hx : (x == c) = true
    · simp [hx]
    · rw [Bool.not_eq_true] at hx
      simp only [hx]
      cases splitOnChar c xs <;> simp

/-- The first chunk of a character split is the prefix up to the first
separator. -/
theorem splitOnChar_headD (c : Char) (l : List Char) :
    (splitOnChar c l).headD [] = l.takeWhile fun x => !(x == c) := by
  induction l with
  | nil => rfl
  | cons x xs ih =>
    simp only [splitOnChar, List.takeWhile]
    by_cases hx : (x == c) = true
    · simp [hx]
    · rw [Bool.not_eq_true] at hx
      simp only [hx]
      cases hr : splitOnChar c xs with
      | nil => exact absurd hr (splitOnChar_ne_nil c xs)
      | cons h0 t0 =>
        rw [hr] at ih
        simp only [List.headD_cons] at ih
        simp [ih]

theorem strLen_strTake (s : String) (n : Nat) : strLen (strTake s n) = min n (strLen s) := by
  simp [strLen, strTake]

theorem strLen_append (a b : String) : strLen (a ++ b) = strLen a + strLen b := by
  simp [strLen, strData_append]

theorem ne_empty_of_strLen_pos {s : String} (h : 0 < strLen s) : s ≠ "" := by
  intro he
  rw [he] at h
  simp [strLen] at h

/-- Claim C5 (amended): for every reply with no `<analysis>` span the
Response Parser returns the fallback record: `root_cause` is the text up
to the first period, truncated to 200 characters plus an ellipsis if
longer (hence at most 203 characters, and nonempty whenever the text up
to the first period is nonempty — the original claim's unconditional
"non-empty" fails on a reply that is empty or starts with a period, see
`C5_counterexample`); `explanation` is the full reply truncated to 500
characters plus an ellipsis if longer (at most 503 characters);
`file_changes` maps `analysis.md` to the full reply; `confidence` is
`MEDIUM`; `reasoning_trace` holds the stripped `<thinking>` spans. The
parser never fails: the result is always a structurally valid record. -/
theorem C5_fallback_shape (t : String)
    (h : findBetweenS "<analysis>" "</analysis>" t = none) :
    extract_analysis t = some (create_fallback_analysis t) ∧
    (create_fallback_analysis t).root_cause =
      (if strLen (firstSentence t) > 200 then strTake (firstSentence t) 200 ++ "..."
       else firstSentence t) ∧
    strLen (create_fallback_analysis t).root_cause ≤ 203 ∧
    (firstSentence t ≠ "" → (create_fallback_analysis t).root_cause ≠ "") ∧
    (create_fallback_analysis t).explanation =
      (if strLen t > 500 then strTake t 500 ++ "..." else t) ∧
    strLen (create_fallback_analysis t).explanation ≤ 503 ∧
    (create_fallback_analysis t).file_changes = [("analysis.md", t)] ∧
    (create_fallback_analysis t).confidence = "MEDIUM" ∧
    (create_fallback_analysis t).reasoning_trace =
      (findAllBetween "<thinking>" "</thinking>" t).map pyStrip := by
  have hfs : (⟨(splitOnChar '.' t.data).headD []⟩ : String) = firstSentence t := by
    rw [splitOnChar_headD]
    rfl
  have hdots : strLen "..." = 3 := rfl
  have hrc : (create_fallback_analysis t).root_cause =
      (if strLen (firstSentence t) > 200 then strTake (firstSentence t) 200 ++ "..."
       else firstSentence t) := by
    simp only [create_fallback_analysis]
    rw [hfs]
  refine ⟨?_, hrc, ?_, ?_, ?_, ?_, ?_, ?_, ?_⟩
  · unfold extract_analysis
    rw [h]
  · rw [hrc]
    by_cases hl : strLen (firstSentence t) > 200
    · simp only [hl, if_true, strLen_append, strLen_strTake, hdots]
      omega
    · simp only [hl, if_false]
      omega
  · intro hne
    rw [hrc]
    by_cases hl : strLen (firstSentence t) > 200
    · simp only [hl, if_true]
      apply ne_empty_of_strLen_pos
      rw [strLen_append, strLen_strTake, hdots]
      omega
    · simp only [hl, if_false]
      exact hne
  · rfl
  · unfold create_fallback_analysis
    by_cases hl : strLen t > 500
    · simp only [hl, if_true, strLen_append, strLen_strTake, hdots]
      omega
    · simp only [hl, if_false]
      omega
  · rfl
  · rfl
  · rfl

/-- Counterexample to C5 as stated: on the empty reply (which has no
`<analysis>` span) the fallback `root_cause` is the empty string, not a
non-empty one. -/
theorem C5_counterexample :
    findBetweenS "<analysis>" "</analysis>" "" = none ∧
    extract_analysis "" = some (create_fallback_analysis "") ∧
    (create_fallback_analysis "").root_cause = "" := by
  refine ⟨by decide, by decide, by decide⟩

/-- Witness for C5: a plain reply with one `<thinking>` span and a long
first sentence segment. -/
theorem C5_witness :
    extract_analysis "<thinking>why</thinking> the bug. details" =
      some (create_fallback_analysis "<thinking>why</thinking> the bug. details") ∧
    (create_fallback_analysis "<thinking>why</thinking> the bug. details").root_cause =
      (if strLen (firstSentence "<thinking>why</thinking> the bug. details") > 200 then
        strTake (firstSentence "<thinking>why</thinking> the bug. details") 200 ++ "..."
       else firstSentence "<thinking>why</thinking> the bug. details") ∧
    strLen (create_fallback_analysis "<thinking>why</thinking> the bug. details").root_cause ≤
      203 ∧
    (firstSentence "<thinking>why</thinking> the bug. details" ≠ "" →
      (create_fallback_analysis "<thinking>why</thinking> the bug. details").root_cause ≠ "") ∧
    (create_fallback_analysis "<thinking>why</thinking> the bug. details").explanation =
      (if strLen "<thinking>why</thinking> the bug. details" > 500 then
        strTake "<thinking>why</thinking> the bug. details" 500 ++ "..."
       else "<thinking>why</thinking> the bug. details") ∧
    strLen (create_fallback_analysis "<thinking>why</thinking> the bug. details").explanation ≤
      503 ∧
    (create_fallback_analysis "<thinking>why</thinking> the bug. details").file_changes =
      [("analysis.md", "<thinking>why</thinking> the bug. details")] ∧
    (create_fallback_analysis "<thinking>why</thinking> the bug. details").confidence =
      "MEDIUM" ∧
    (create_fallback_analysis "<thinking>why</thinking> the bug. details").reasoning_trace =
      (findAllBetween "<thinking>" "</thinking>"
          "<thinking>why</thinking> the bug. details").map pyStrip :=
  C5_fallback_shape "<thinking>why</thinking> the bug. details" (by decide)

/-- Claim C10: in the tagged path, a missing-or-empty `ROOT_CAUSE:` value
yields the fixed string `"Analysis completed"`, and a missing-or-empty
`EXPLANATION:` value yields the first 500 characters of the whole reply
with `"..."` appended unconditionally. -/
theorem C10_tagged_defaults (t block : String)
    (h : findBetweenS "<analysis>" "</analysis>" t = some block) :
    ∃ a, extract_analysis t = some a ∧
      ((scanFields (splitNl block)).1 = "" → a.root_cause = "Analysis completed") ∧
      ((scanFields (splitNl block)).2.1 = "" → a.explanation = strTake t 500 ++ "...") := by
  unfold extract_analysis
  rw [h]
  refine ⟨_, rfl, fun h1 => ?_, fun h2 => ?_⟩
  · simp [h1]
  · simp [h2]

/-- Witness for C10: a block with only a `CONFIDENCE:` line; the reply is
far shorter than 500 characters yet the ellipsis is still appended. -/
theorem C10_witness :
    ∃ a, extract_analysis "<analysis>\nCONFIDENCE: LOW\n</analysis>" = some a ∧
      a.root_cause = "Analysis completed" ∧
      a.explanation = strTake "<analysis>\nCONFIDENCE: LOW\n</analysis>" 500 ++ "..." := by
  obtain ⟨a, ha, h1, h2⟩ :=
    C10_tagged_defaults "<analysis>\nCONFIDENCE: LOW\n</analysis>" "\nCONFIDENCE: LOW\n"
      (by decide)
  exact ⟨a, ha, h1 (by decide), h2 (by decide)⟩

/-! ## Content Fetcher slicing (claim C8) -/

/-- The slice of `lines` by 1-based inclusive line numbers `s..e` (the
spec's reading of the range semantics). -/
def oneBasedSlice (lines : List String) (s e : Nat) : List String :=
  (lines.drop (s - 1)).take (e + 1 - s)

/-- Python's `lines[s-1:e]` equals the 1-based inclusive slice `s..e`
when `1 ≤ s`. -/
theorem pySlice_oneBased (lines : List String) (s e : Nat) (hs : 1 ≤ s) :
    pySlice lines ((s : Int) - 1) (e : Int) = oneBasedSlice lines s e := by
  unfold pySlice oneBasedSlice pyIdx
  have h1 : ¬((s : Int) - 1 < 0) := by omega
  have h2 : ¬((e : Int) < 0) := by omega
  have h3 : ((s : Int) - 1).toNat = s - 1 := by omega
  have h4 : ((e : Int)).toNat = e := by omega
  simp only [h1, h2, if_false, h3, h4]
  rcases le_or_lt (s - 1) lines.length with hle | hlt
  · rw [min_eq_left hle]
    apply List.take_eq_take.mpr
    rw [List.length_drop]
    omega
  · rw [min_eq_right (le_of_lt hlt)]
    rw [List.drop_length, List.drop_eq_nil_of_le (le_of_lt hlt)]
    simp

/-- Claim C8: the Content Fetcher never raises — on failure it returns
the corresponding sentinel string; on success with a line range given it
returns the slice by 1-based inclusive line numbers with missing bounds
clamped to the full extent, prefixed by a header naming the file and the
effective range; with no range it returns the full text prefixed by a
header naming just the file. -/
theorem C8_content_fetcher :
    (∀ (fs : String → FetchOutcome) (p : String) (sl el : Option Int),
        fs p = FetchOutcome.missing →
        read_file_content fs p sl el = "File not found: " ++ p) ∧
    (∀ (fs : String → FetchOutcome) (p m : String) (sl el : Option Int),
        fs p = FetchOutcome.readErr m →
        read_file_content fs p sl el = "Error reading file: " ++ m) ∧
    (∀ (fs : String → FetchOutcome) (p c : String),
        fs p = FetchOutcome.ok c →
        read_file_content fs p none none = "# " ++ p ++ "\n" ++ c) ∧
    (∀ (fs : String → FetchOutcome) (p c : String) (s e : Nat),
        fs p = FetchOutcome.ok c → 1 ≤ s → 1 ≤ e →
        read_file_content fs p (some (s : Int)) (some (e : Int)) =
          "# " ++ p ++ " lines " ++ toString (s : Int) ++ "-" ++ toString (e : Int) ++ "\n" ++
            joinNl (oneBasedSlice (splitNl c) s e)) ∧
    (∀ (fs : String → FetchOutcome) (p c : String) (s : Nat),
        fs p = FetchOutcome.ok c → 1 ≤ s →
        read_file_content fs p (some (s : Int)) none =
          "# " ++ p ++ " lines " ++ toString (s : Int) ++ "-" ++
            toString (((splitNl c).length : Int)) ++ "\n" ++
            joinNl ((splitNl c).drop (s - 1))) ∧
    (∀ (fs : String → FetchOutcome) (p c : String) (e : Nat),
        fs p = FetchOutcome.ok c → 1 ≤ e →
        read_file_content fs p none (some (e : Int)) =
          "# " ++ p ++ " lines " ++ toString ((0 : Int) + 1) ++ "-" ++ toString (e : Int) ++
            "\n" ++ joinNl ((splitNl c).take e)) := by
  have hone : ∀ s : Nat, 1 ≤ s → otruthy (some (s : Int)) = true := by
    intro s hs
    simp only [otruthy, bne_iff_ne, ne_eq]
    omega
  have hnone : otruthy none = false := rfl
  refine ⟨?_, ?_, ?_, ?_, ?_, ?_⟩
  · intro fs p sl el h
    unfold read_file_content
    rw [h]
  · intro fs p m sl el h
    unfold read_file_content
    rw [h]
  · intro fs p c h
    unfold read_file_content
    rw [h]
    rfl
  · intro fs p c s e h hs he
    unfold read_file_content
    rw [h]
    simp only [hone s hs, hone e he, Bool.true_or, if_true, Option.getD_some]
    rw [pySlice_oneBased (splitNl c) s e hs]
    have hse : (s : Int) - 1 + 1 = (s : Int) := by omega
    rw [hse]
  · intro fs p c s h hs
    unfold read_file_content
    rw [h]
    simp only [hone s hs, hnone, Bool.true_or, Bool.or_false, if_true, Option.getD_some,
      Bool.false_eq_true, if_false]
    have hse : (s : Int) - 1 + 1 = (s : Int) := by omega
    rw [hse]
    have hslice :
        pySlice (splitNl c) ((s : Int) - 1) (((splitNl c).length : Nat) : Int) =
          (splitNl c).drop (s - 1) := by
      rw [pySlice_oneBased (splitNl c) s (splitNl c).length hs]
      unfold oneBasedSlice
      apply List.take_of_length_le
      rw [List.length_drop]
      omega
    rw [hslice]
  · intro fs p c e h he
    unfold read_file_content
    rw [h]
    simp only [hone e he, hnone, Bool.or_true, Bool.false_or, if_true, Option.getD_some,
      Bool.false_eq_true, if_false]
    have hslice : pySlice (splitNl c) 0 ((e : Int)) = (splitNl c).take e := by
      unfold pySlice pyIdx
      have h2 : ¬((e : Int) < 0) := by omega
      have h4 : ((e : Int)).toNat = e := by omega
      have h0 : ¬((0 : Int) < 0) := by omega
      simp only [h2, h0, if_false, h4, Int.toNat_zero, Nat.zero_min, Nat.min_zero,
        List.drop_zero, Nat.sub_zero]
      apply List.take_eq_take.mpr
      omega
    rw [hslice]

/-- Witness for C8: a concrete four-line file sliced to lines 2..3, plus
the not-found sentinel. -/
theorem C8_witness :
    read_file_content (fun _ => FetchOutcome.ok "l1\nl2\nl3\nl4") "a.py"
        (some ((2 : Nat) : Int)) (some ((3 : Nat) : Int)) =
      "# a.py lines " ++ toString ((2 : Nat) : Int) ++ "-" ++ toString ((3 : Nat) : Int) ++
        "\n" ++ joinNl (oneBasedSlice (splitNl "l1\nl2\nl3\nl4") 2 3) ∧
    read_file_content (fun _ => FetchOutcome.missing) "b.py" none none =
      "File not found: " ++ "b.py" :=
  ⟨C8_content_fetcher.2.2.2.1 (fun _ => FetchOutcome.ok "l1\nl2\nl3\nl4") "a.py"
      "l1\nl2\nl3\nl4" 2 3 rfl (by decide) (by decide),
   C8_content_fetcher.1 (fun _ => FetchOutcome.missing) "b.py" none none rfl⟩

/-! ## Direct-path file inclusion (claim C7) -/

/-- Concatenation of a list of strings. -/
def joinStrs : List String → String
  | [] => ""
  | s :: r => s ++ joinStrs r

/-- Claim C7 (amended): in the Direct Analysis Path, a file is skipped —
excluded from the prompt — exactly when its fetch result CONTAINS the
substring `"Error reading file"` (Python's `in` test, not a check of the
documented sentinel prefixes); every other fetch result, including the
`"File not found:"` sentinel, is included as a fenced code block. The
original claim, that any fetch result matching the sentinel format
(prefix `"Error reading file:"` or `"File not found:"`) is excluded,
fails on the not-found sentinel — see `C7_counterexample`. -/
theorem C7_direct_skip :
    ∀ (fs : String → FetchOutcome) (file_paths : List String) (acc : String),
      addFileContents fs file_paths acc =
        acc ++ joinStrs (file_paths.map fun fp =>
          let fc := read_file_content fs fp none none
          if containsSub fc "Error reading file" then ""
          else "\n```python\n" ++ fc ++ "\n```\n") := by
  intro fs file_paths
  induction file_paths with
  | nil =>
    intro acc
    rw [addFileContents, List.map_nil, joinStrs, strAppend_empty]
  | cons fp rest ih =>
    intro acc
    rw [addFileContents, List.map_cons, joinStrs]
    by_cases hc : containsSub (read_file_content fs fp none none) "Error reading file" = true
    · simp only [hc, if_true, ih, strEmpty_append]
    · rw [Bool.not_eq_true] at hc
      simp only [hc, Bool.false_eq_true, if_false, ih, strAppend_assoc]

/-- Counterexample to C7 as stated: a missing file yields the documented
sentinel `"File not found: a.py"`, yet its text is embedded in the
direct prompt as a fenced code block rather than skipped. -/
theorem C7_counterexample :
    startsWithStr "File not found:"
        (read_file_content (fun _ => FetchOutcome.missing) "a.py" none none) = true ∧
    addFileContents (fun _ => FetchOutcome.missing) ["a.py"] "" =
      "\n```python\nFile not found: a.py\n```\n" ∧
    containsSub (directPrompt (fun _ => FetchOutcome.missing) "bug" ["a.py"])
        "File not found: a.py" = true := by
  refine ⟨by decide, by decide, by decide⟩

/-! ## ReAct loop lemmas (claims C1, C2, C3, C9) -/

/-- The request-processing fold extends the requested-files set and the
fetch log by one common, duplicate-free batch of paths, each of which
was not yet requested. -/
theorem processRequests_log (fs : String → FetchOutcome) (trs : List ToolRequest) :
    ∀ (msgs : List Msg) (req : List String) (flag : Bool) (log : List String),
      ∃ newlog : List String,
        (processRequests fs trs msgs req flag log).2.1 = req ++ newlog ∧
        (processRequests fs trs msgs req flag log).2.2.2 = log ++ newlog ∧
        newlog.Nodup ∧ ∀ p ∈ newlog, p ∉ req := by
  induction trs with
  | nil =>
    intro msgs req flag log
    exact ⟨[], by simp [processRequests], by simp [processRequests], List.nodup_nil, by simp⟩
  | cons tr trs ih =>
    intro msgs req flag log
    by_cases hc : (tr.tool == "read_file" && optStrTruthy tr.file_path) = true
    · by_cases hm : req.contains (tr.file_path.getD "") = true
      · simpa only [processRequests, hc, hm, if_true] using ih msgs req flag log
      · rw [Bool.not_eq_true] at hm
        simp only [processRequests, hc, hm, Bool.false_eq_true, if_true, if_false]
        obtain ⟨nl, h1, h2, h3, h4⟩ :=
          ih (msgs ++ [fileTurn fs tr (tr.file_path.getD "")])
            (req ++ [tr.file_path.getD ""]) true (log ++ [tr.file_path.getD ""])
        refine ⟨tr.file_path.getD "" :: nl, ?_, ?_, ?_, ?_⟩
        · rw [h1, List.append_assoc, List.singleton_append]
        · rw [h2, List.append_assoc, List.singleton_append]
        · rw [List.nodup_cons]
          refine ⟨fun hin => ?_, h3⟩
          exact h4 _ hin (List.mem_append_right req (List.mem_singleton_self _))
        · intro p hp
          rcases List.mem_cons.mp hp with rfl | hp2
          · intro hin
            have hct : req.contains (tr.file_path.getD "") = true := List.elem_iff.mpr hin
            rw [hct] at hm
            exact Bool.true_eq_false.mp hm
          · intro hin
            exact h4 p hp2 (List.mem_append_left _ hin)
    · rw [Bool.not_eq_true] at hc
      simpa only [processRequests, hc, Bool.false_eq_true, if_false] using ih msgs req flag log

/-- When every actionable `read_file` request names an already requested
path, the processing fold changes nothing: no file turn is appended, no
path is fetched or recorded, and the `new_files_added` flag is left as
it was. -/
theorem processRequests_all_dup (fs : String → FetchOutcome) (trs : List ToolRequest) :
    ∀ (msgs : List Msg) (req : List String) (flag : Bool) (log : List String),
      (∀ tr ∈ trs, tr.tool = "read_file" →
          ∀ fp, tr.file_path = some fp → fp ≠ "" → fp ∈ req) →
      processRequests fs trs msgs req flag log = (msgs, req, flag, log) := by
  induction trs with
  | nil =>
    intro msgs req flag log _
    rfl
  | cons tr trs ih =>
    intro msgs req flag log h
    have hrest : ∀ tr ∈ trs, tr.tool = "read_file" →
        ∀ fp, tr.file_path = some fp → fp ≠ "" → fp ∈ req :=
      fun x hx => h x (List.mem_cons_of_mem tr hx)
    by_cases hc : (tr.tool == "read_file" && optStrTruthy tr.file_path) = true
    · rw [Bool.and_eq_true] at hc
      obtain ⟨hc1, hc2⟩ := hc
      have htool : tr.tool = "read_file" := by
        have := hc1
        simp only [beq_iff_eq] at this
        exact this
      obtain ⟨fp, hfp, hfpne⟩ : ∃ fp, tr.file_path = some fp ∧ fp ≠ "" := by
        cases hp : tr.file_path with
        | none => rw [hp] at hc2; exact absurd hc2 (by simp [optStrTruthy])
        | some s =>
          rw [hp] at hc2
          refine ⟨s, rfl, ?_⟩
          simpa [optStrTruthy] using hc2
      have hmem : fp ∈ req := h tr (List.mem_cons_self tr trs) htool fp hfp hfpne
      have hgd : tr.file_path.getD "" = fp := by rw [hfp]; rfl
      have hcontains : req.contains (tr.file_path.getD "") = true := by
        rw [hgd]
        exact List.elem_iff.mpr hmem
      have hc' : (tr.tool == "read_file" && optStrTruthy tr.file_path) = true := by
        rw [Bool.and_eq_true]
        exact ⟨hc1, hc2⟩
      simp only [processRequests, hc', hcontains, if_true]
      exact ih msgs req flag log hrest
    · rw [Bool.not_eq_true] at hc
      simp only [processRequests, hc, Bool.false_eq_true, if_false]
      exact ih msgs req flag log hrest

/-- The fetch log of a ReAct loop run is duplicate-free and disjoint
from the requested-files set the loop was entered with. -/
theorem reactLoop_fetched_nodup (llm : List Msg → Option String) (fs : String → FetchOutcome) :
    ∀ (fuel : Nat) (messages : List Msg) (trace req : List String) (it : Nat),
      (reactLoop llm fs fuel messages trace req it).fetched.Nodup ∧
      ∀ p ∈ (reactLoop llm fs fuel messages trace req it).fetched, p ∉ req := by
  intro fuel
  induction fuel with
  | zero =>
    intro messages trace req it
    simp [reactLoop]
  | succ fuel ih =>
    intro messages trace req it
    cases hl : llm messages with
    | none =>
      simpa only [reactLoop, hl] using ih messages trace req (it + 1)
    | some t =>
      by_cases he : (parse_tool_requests t).isEmpty = true
      · cases hx : extract_analysis t <;> simp [reactLoop, hl, he, hx]
      · rw [Bool.not_eq_true] at he
        obtain ⟨nl, h1, h2, h3, h4⟩ :=
          processRequests_log fs (parse_tool_requests t)
            (messages ++ [⟨"assistant", t⟩]) req false []
        rw [List.nil_append] at h2
        have hres :
            (reactLoop llm fs (fuel + 1) messages trace req it).fetched =
              nl ++ (reactLoop llm fs fuel
                (if (processRequests fs (parse_tool_requests t)
                      (messages ++ [⟨"assistant", t⟩]) req false []).2.2.1 then
                  (processRequests fs (parse_tool_requests t)
                      (messages ++ [⟨"assistant", t⟩]) req false []).1
                 else
                  (processRequests fs (parse_tool_requests t)
                      (messages ++ [⟨"assistant", t⟩]) req false []).1 ++ [forcingMsg])
                (trace ++
                  ["Iteration " ++ toString (it + 1) ++ ": " ++ strTake t 200 ++ "..."])
                (req ++ nl) (it + 1)).fetched := by
          simp only [reactLoop, hl, he, Bool.false_eq_true, if_false, h2, h1]
        obtain ⟨ihn, ihd⟩ := ih
          (if (processRequests fs (parse_tool_requests t)
                (messages ++ [⟨"assistant", t⟩]) req false []).2.2.1 then
            (processRequests fs (parse_tool_requests t)
                (messages ++ [⟨"assistant", t⟩]) req false []).1
           else
            (processRequests fs (parse_tool_requests t)
                (messages ++ [⟨"assistant", t⟩]) req false []).1 ++ [forcingMsg])
          (trace ++ ["Iteration " ++ toString (it + 1) ++ ": " ++ strTake t 200 ++ "..."])
          (req ++ nl) (it + 1)
        constructor
        · rw [hres, List.nodup_append]
          refine ⟨h3, ihn, fun p hp hp2 => ?_⟩
          exact ihd p hp2 (List.mem_append_right req hp)
        · intro p hp
          rw [hres] at hp
          rcases List.mem_append.mp hp with hp1 | hp2
          · exact h4 p hp1
          · intro hin
            exact ihd p hp2 (List.mem_append_left nl hin)

/-- Claim C1: within one ReAct invocation the Content Fetcher is invoked
for each file path at most once, no matter how many tool requests across
how many iterations name that path: the recorded sequence of fetched
paths has no duplicates. -/
theorem C1_react_no_refetch (llm : List Msg → Option String) (fs : String → FetchOutcome)
    (issue_description : String) (max_iterations : Nat) :
    (analyze_bug_react llm fs issue_description max_iterations).fetched.Nodup ∧
    ∀ p : String,
      (analyze_bug_react llm fs issue_description max_iterations).fetched.count p ≤ 1 := by
  have h := (reactLoop_fetched_nodup llm fs max_iterations
    [⟨"user", "Please analyze this bug report and identify the root cause:\n\n" ++
        issue_description⟩] [] [] 0).1
  exact ⟨h, fun p => List.nodup_iff_count_le_one.mp h p⟩

/-- Claim C2: with iteration budget 1 and a model whose every reply
contains at least one tool request, the ReAct path performs exactly one
model call and returns the exhausted-fallback record — the
fallback-builder output seeded with the fixed placeholder string — a
structurally valid BugAnalysis, not an error and not `none`. -/
theorem C2_react_budget_exhausted (llm : List Msg → Option String) (fs : String → FetchOutcome)
    (issue_description : String)
    (h : ∀ msgs : List Msg, ∃ t, llm msgs = some t ∧ parse_tool_requests t ≠ []) :
    (analyze_bug_react llm fs issue_description 1).analysis =
      some (create_fallback_analysis "Analysis attempted but max iterations reached") ∧
    (analyze_bug_react llm fs issue_description 1).calls = 1 ∧
    create_fallback_analysis "Analysis attempted but max iterations reached" =
      ⟨"Analysis attempted but max iterations reached",
       "Analysis attempted but max iterations reached",
       [("analysis.md", "Analysis attempted but max iterations reached")], [], "MEDIUM"⟩ := by
  obtain ⟨t, hl, hreq⟩ := h [⟨"user",
    "Please analyze this bug report and identify the root cause:\n\n" ++ issue_description⟩]
  have he : (parse_tool_requests t).isEmpty = false := by
    cases hpt : parse_tool_requests t with
    | nil => exact absurd hpt hreq
    | cons a l => rfl
  have h1 : (1 : Nat) = 0 + 1 := rfl
  unfold analyze_bug_react
  rw [h1]
  refine ⟨?_, ?_, by decide⟩
  · simp only [reactLoop, hl, he, Bool.false_eq_true, if_false]
  · simp only [reactLoop, hl, he, Bool.false_eq_true, if_false]

/-- Witness for C2: a model that always requests `a.py` against budget 1. -/
theorem C2_witness :
    (analyze_bug_react (fun _ => some "TOOL_REQUEST: read_file\nFILE: a.py")
        (fun _ => FetchOutcome.missing) "some bug" 1).analysis =
      some (create_fallback_analysis "Analysis attempted but max iterations reached") ∧
    (analyze_bug_react (fun _ => some "TOOL_REQUEST: read_file\nFILE: a.py")
        (fun _ => FetchOutcome.missing) "some bug" 1).calls = 1 ∧
    create_fallback_analysis "Analysis attempted but max iterations reached" =
      ⟨"Analysis attempted but max iterations reached",
       "Analysis attempted but max iterations reached",
       [("analysis.md", "Analysis attempted but max iterations reached")], [], "MEDIUM"⟩ :=
  C2_react_budget_exhausted (fun _ => some "TOOL_REQUEST: read_file\nFILE: a.py")
    (fun _ => FetchOutcome.missing) "some bug"
    (fun _ => ⟨"TOOL_REQUEST: read_file\nFILE: a.py", rfl, by decide⟩)

/-- Claim C3: in a ReAct iteration whose reply contains tool requests,
but in which every actionable `read_file` request names an
already-requested path (so no request yields a newly fetched file), the
processing fold leaves the conversation, the requested-files set and the
fetch log untouched, and the only turn appended after the assistant
reply is the single fixed forcing instruction — not a file-content
turn. -/
theorem C3_react_forcing_turn (llm : List Msg → Option String) (fs : String → FetchOutcome)
    (fuel : Nat) (messages : List Msg) (trace req : List String) (it : Nat) (t : String)
    (hl : llm messages = some t)
    (hne : parse_tool_requests t ≠ [])
    (hdup : ∀ tr ∈ parse_tool_requests t, tr.tool = "read_file" →
        ∀ fp, tr.file_path = some fp → fp ≠ "" → fp ∈ req) :
    processRequests fs (parse_tool_requests t) (messages ++ [⟨"assistant", t⟩]) req false [] =
      (messages ++ [⟨"assistant", t⟩], req, false, []) ∧
    (reactLoop llm fs (fuel + 1) messages trace req it).analysis =
      (reactLoop llm fs fuel (messages ++ [⟨"assistant", t⟩, forcingMsg])
        (trace ++ ["Iteration " ++ toString (it + 1) ++ ": " ++ strTake t 200 ++ "..."])
        req (it + 1)).analysis ∧
    (reactLoop llm fs (fuel + 1) messages trace req it).calls =
      (reactLoop llm fs fuel (messages ++ [⟨"assistant", t⟩, forcingMsg])
        (trace ++ ["Iteration " ++ toString (it + 1) ++ ": " ++ strTake t 200 ++ "..."])
        req (it + 1)).calls + 1 ∧
    (reactLoop llm fs (fuel + 1) messages trace req it).fetched =
      (reactLoop llm fs fuel (messages ++ [⟨"assistant", t⟩, forcingMsg])
        (trace ++ ["Iteration " ++ toString (it + 1) ++ ": " ++ strTake t 200 ++ "..."])
        req (it + 1)).fetched := by
  have hproc := processRequests_all_dup fs (parse_tool_requests t)
    (messages ++ [⟨"assistant", t⟩]) req false [] hdup
  have he : (parse_tool_requests t).isEmpty = false := by
    cases hpt : parse_tool_requests t with
    | nil => exact absurd hpt hne
    | cons a l => rfl
  have hmsgs : (messages ++ [⟨"assistant", t⟩]) ++ [forcingMsg] =
      messages ++ [⟨"assistant", t⟩, forcingMsg] := by
    rw [List.append_assoc]
    rfl
  refine ⟨hproc, ?_, ?_, ?_⟩ <;>
    simp only [reactLoop, hl, he, Bool.false_eq_true, if_false, hproc, hmsgs,
      List.nil_append]

/-- Witness for C3: the model re-requests `a.py`, which is already in the
requested-files set; nothing is fetched and the forcing turn follows the
assistant turn. -/
theorem C3_witness :
    processRequests (fun _ => FetchOutcome.missing)
        (parse_tool_requests "TOOL_REQUEST: read_file\nFILE: a.py")
        ([] ++ [⟨"assistant", "TOOL_REQUEST: read_file\nFILE: a.py"⟩]) ["a.py"] false [] =
      ([] ++ [⟨"assistant", "TOOL_REQUEST: read_file\nFILE: a.py"⟩], ["a.py"], false, []) ∧
    (reactLoop (fun _ => some "TOOL_REQUEST: read_file\nFILE: a.py")
        (fun _ => FetchOutcome.missing) (1 + 1) [] [] ["a.py"] 0).fetched =
      (reactLoop (fun _ => some "TOOL_REQUEST: read_file\nFILE: a.py")
        (fun _ => FetchOutcome.missing) 1
        ([] ++ [⟨"assistant", "TOOL_REQUEST: read_file\nFILE: a.py"⟩, forcingMsg])
        ([] ++ ["Iteration " ++ toString (0 + 1) ++ ": " ++
            strTake "TOOL_REQUEST: read_file\nFILE: a.py" 200 ++ "..."])
        ["a.py"] (0 + 1)).fetched := by
  have h := C3_react_forcing_turn (fun _ => some "TOOL_REQUEST: read_file\nFILE: a.py")
    (fun _ => FetchOutcome.missing) 1 [] [] ["a.py"] 0 "TOOL_REQUEST: read_file\nFILE: a.py"
    rfl (by decide) ?hd
  case hd =>
    intro tr htr htool fp hfp hne
    have hpt : parse_tool_requests "TOOL_REQUEST: read_file\nFILE: a.py" =
        [⟨"read_file", some "a.py", none, none⟩] := by decide
    rw [hpt] at htr
    have htr2 := List.mem_singleton.mp htr
    subst htr2
    injection hfp with hfp2
    subst hfp2
    exact List.mem_singleton_self _
  exact ⟨h.1, h.2.2.2⟩

/-- Every input to the Response Parser yields a record: both reachable
return sites of `extract_analysis` construct a `BugAnalysis`. -/
theorem extract_analysis_total (t : String) : (extract_analysis t).isSome = true := by
  unfold extract_analysis
  cases findBetweenS "<analysis>" "</analysis>" t <;> rfl

/-- Claim C9: a model reply with no tool requests terminates the ReAct
invocation in that same iteration with a BugAnalysis — `extract_analysis`
never yields "no result", so the loop never re-prompts after an
unparseable final reply; the terminating iteration performs exactly one
model call and fetches nothing, whatever budget remains (it does not
consume budget); only iterations with tool requests or a raised provider
error continue into the remaining budget, the latter counting one model
call. -/
theorem C9_no_request_terminates :
    (∀ t : String, (extract_analysis t).isSome = true) ∧
    (∀ (llm : List Msg → Option String) (fs : String → FetchOutcome) (fuel : Nat)
        (messages : List Msg) (trace req : List String) (it : Nat) (t : String),
        llm messages = some t →
        parse_tool_requests t = [] →
        ∃ a, extract_analysis t = some a ∧
          reactLoop llm fs (fuel + 1) messages trace req it =
            { analysis := some { a with reasoning_trace := trace ++
                ["Iteration " ++ toString (it + 1) ++ ": " ++ strTake t 200 ++ "..."] },
              calls := 1, fetched := [] }) ∧
    (∀ (llm : List Msg → Option String) (fs : String → FetchOutcome) (fuel : Nat)
        (messages : List Msg) (trace req : List String) (it : Nat),
        llm messages = none →
        (reactLoop llm fs (fuel + 1) messages trace req it).analysis =
          (reactLoop llm fs fuel messages trace req (it + 1)).analysis ∧
        (reactLoop llm fs (fuel + 1) messages trace req it).calls =
          (reactLoop llm fs fuel messages trace req (it + 1)).calls + 1) := by
  refine ⟨extract_analysis_total, ?_, ?_⟩
  · intro llm fs fuel messages trace req it t hl hp
    have he : (parse_tool_requests t).isEmpty = true := by
      rw [hp]
      rfl
    cases hx : extract_analysis t with
    | none =>
      have htot := extract_analysis_total t
      rw [hx] at htot
      exact absurd htot (by simp)
    | some a =>
      refine ⟨a, rfl, ?_⟩
      simp only [reactLoop, hl, he, if_true, hx]
  · intro llm fs fuel messages trace req it hl
    constructor <;> simp only [reactLoop, hl]

/-- Witness for C9: a tool-request-free reply terminates immediately with
budget left over. -/
theorem C9_witness :
    ∃ a, extract_analysis "hello world" = some a ∧
      reactLoop (fun _ => some "hello world") (fun _ => FetchOutcome.missing) (2 + 1)
          [] [] [] 0 =
        { analysis := some { a with reasoning_trace := [] ++
            ["Iteration " ++ toString (0 + 1) ++ ": " ++ strTake "hello world" 200 ++ "..."] },
          calls := 1, fetched := [] } :=
  C9_no_request_terminates.2.1 (fun _ => some "hello world") (fun _ => FetchOutcome.missing)
    2 [] [] [] 0 "hello world" rfl (by decide)

end BugSurgeon
